import Mathlib

/-!
Shallow embedding of the fridge-to-recipe single-page app (`App.tsx` together
with `types.ts`).  The component state (five `useState` hooks) is modelled as
one structure `AppModel`; each event handler becomes a pure function on
`AppModel`.  The asynchronous service calls (`analyzeFridgeImage`,
`generateRecipes`) are modelled by passing the service in as a function
returning `Except Unit _` (`Except.error` standing for a rejected promise);
each handler that may call a service also returns the request it sent
(`none` when no call was made), so that claims about the arguments the
service receives can be stated.
-/

/-- `AppState` from `types.ts`. -/
inductive AppState where
  | IDLE
  | ANALYZING
  | EDITING
  | GENERATING
  | RESULTS
  deriving DecidableEq, Repr

/-- The `difficulty` union type of `Recipe` in `types.ts`. -/
inductive Difficulty where
  | Easy
  | Medium
  | Hard
  deriving DecidableEq, Repr

/-- `Ingredient` from `types.ts`. -/
structure Ingredient where
  id : String
  name : String
  possibleAlternates : List String
  deriving DecidableEq, Repr

/-- `Recipe` from `types.ts`. -/
structure Recipe where
  id : String
  title : String
  description : String
  prepTime : String
  difficulty : Difficulty
  ingredientsNeeded : List String
  instructions : List String
  deriving DecidableEq, Repr

/-- The five `useState` hooks of the `App` component, bundled. -/
structure AppModel where
  state : AppState
  capturedImages : List String
  ingredients : List Ingredient
  recipes : List Recipe
  error : Option String
  deriving DecidableEq, Repr

/-- The initial values of the five hooks. -/
def initialModel : AppModel :=
  { state := AppState.IDLE, capturedImages := [], ingredients := [],
    recipes := [], error := none }

/-- `handleFileUpload`: with no selected files it returns early; otherwise it
clears the error and appends every decoded payload to `capturedImages` (the
FileReader promises in the source only ever resolve, so the catch branch is
unreachable).  There is no length check in the handler itself. -/
def handleFileUpload (s : AppModel) (payloads : List String) : AppModel :=
  if payloads.length = 0 then s
  else { s with error := none, capturedImages := s.capturedImages ++ payloads }

/-- JavaScript `Array.prototype.filter` when the callback also uses the index
argument; `k` is the index of the head of the remaining list. -/
def jsFilterIdx (p : Nat → String → Bool) : List String → Nat → List String
  | [], _ => []
  | a :: l, k => if p k a then a :: jsFilterIdx p l (k + 1) else jsFilterIdx p l (k + 1)

/-- `removeImage`: `setCapturedImages(prev => prev.filter((_, i) => i !== index))`. -/
def removeImage (s : AppModel) (index : Nat) : AppModel :=
  { s with capturedImages := jsFilterIdx (fun i _ => i != index) s.capturedImages 0 }

/-- `handleStartAnalysis`: early return on an empty capture list; otherwise
the state goes to ANALYZING and the error is cleared, `analyzeFridgeImage`
is called with all captured images, and on success the ingredient list is
replaced and the state becomes EDITING while on failure a generic message is
set and the state rolls back to IDLE.  The second component of the result is
the request sent to the service, `none` when no call was made. -/
def handleStartAnalysis (svc : List String → Except Unit (List Ingredient))
    (s : AppModel) : AppModel × Option (List String) :=
  if s.capturedImages.length = 0 then (s, none)
  else
    let s1 := { s with state := AppState.ANALYZING, error := none }
    match svc s.capturedImages with
    | Except.ok detected =>
        ({ s1 with ingredients := detected, state := AppState.EDITING },
         some s.capturedImages)
    | Except.error _ =>
        ({ s1 with error := some "Failed to analyze images. Please try again.",
                   state := AppState.IDLE },
         some s.capturedImages)

/-- `updateIngredientName`: rename every ingredient whose `id` matches,
leaving the rest of the record and the rest of the list alone. -/
def updateIngredientName (s : AppModel) (tid newName : String) : AppModel :=
  { s with ingredients :=
      (s.ingredients.map
        (fun ing => if ing.id == tid then { ing with name := newName } else ing)) }

/-- `swapIngredient` (accepting a suggested alternate): identical shape to
`updateIngredientName`; only the `name` field is replaced. -/
def swapIngredient (s : AppModel) (tid newName : String) : AppModel :=
  { s with ingredients :=
      (s.ingredients.map
        (fun ing => if ing.id == tid then { ing with name := newName } else ing)) }

/-- `removeIngredient`: drop every ingredient whose `id` matches. -/
def removeIngredient (s : AppModel) (tid : String) : AppModel :=
  { s with ingredients := s.ingredients.filter (fun ing => ing.id != tid) }

/-- `handleGenerateRecipes`: state goes to GENERATING, the service is called
with the current ingredient names and no `existingTitles` argument; on
success the recipe list is replaced and the state becomes RESULTS, on
failure an error message is set and the state rolls back to EDITING.  The
second component records the service request. -/
def handleGenerateRecipes
    (svc : List String → Option (List String) → Except Unit (List Recipe))
    (s : AppModel) : AppModel × Option (List String × Option (List String)) :=
  let s1 := { s with state := AppState.GENERATING }
  let ingredientNames := s.ingredients.map Ingredient.name
  match svc ingredientNames none with
  | Except.ok results =>
      ({ s1 with recipes := results, state := AppState.RESULTS },
       some (ingredientNames, none))
  | Except.error _ =>
      ({ s1 with error := some "Failed to generate recipes.",
                 state := AppState.EDITING },
       some (ingredientNames, none))

/-- `handleMoreSuggestions`: like `handleGenerateRecipes` but the service also
receives the titles of the recipes already shown, the new results are
appended after the existing ones, and the failure path returns to RESULTS. -/
def handleMoreSuggestions
    (svc : List String → Option (List String) → Except Unit (List Recipe))
    (s : AppModel) : AppModel × Option (List String × Option (List String)) :=
  let s1 := { s with state := AppState.GENERATING }
  let ingredientNames := s.ingredients.map Ingredient.name
  let existingTitles := s.recipes.map Recipe.title
  match svc ingredientNames (some existingTitles) with
  | Except.ok moreResults =>
      ({ s1 with recipes := s.recipes ++ moreResults, state := AppState.RESULTS },
       some (ingredientNames, some existingTitles))
  | Except.error _ =>
      ({ s1 with error := some "Failed to get more suggestions.",
                 state := AppState.RESULTS },
       some (ingredientNames, some existingTitles))

/-- `reset`: clears ingredients, recipes and captured images and returns to
IDLE (the error banner is not touched by `reset`). -/
def reset (s : AppModel) : AppModel :=
  { s with ingredients := [], recipes := [], capturedImages := [],
           state := AppState.IDLE }

/-- One capture-screen action: a (possibly multi-file) upload or a removal. -/
inductive CaptureEvent where
  | add (payloads : List String)
  | remove (index : Nat)
  deriving DecidableEq, Repr

/-- Interpretation of one capture-screen action by the handlers above. -/
def applyCaptureEvent (s : AppModel) : CaptureEvent → AppModel
  | CaptureEvent.add ps => handleFileUpload s ps
  | CaptureEvent.remove i => removeImage s i

/-- Run a sequence of capture-screen actions. -/
def runCapture : AppModel → List CaptureEvent → AppModel
  | s, [] => s
  | s, e :: es => runCapture (applyCaptureEvent s e) es

/-- The capture UI renders the camera/upload buttons only while
`capturedImages.length < 10`, so an upload event can fire only under that
guard; removal buttons are always available. -/
def uiGuarded : AppModel → List CaptureEvent → Bool
  | _, [] => true
  | s, CaptureEvent.add ps :: es =>
      decide (s.capturedImages.length < 10) && uiGuarded (handleFileUpload s ps) es
  | s, CaptureEvent.remove i :: es => uiGuarded (removeImage s i) es

/-- Every upload event in the trace carries at most one payload. -/
def singleUploads : List CaptureEvent → Bool
  | [] => true
  | CaptureEvent.add ps :: es => decide (ps.length ≤ 1) && singleUploads es
  | CaptureEvent.remove _ :: es => singleUploads es

/-- Spec-level description of the capture list (insertion and removal order):
each upload appends its payloads in order at the end, each removal deletes
exactly the element at its index (out of bounds: no change). -/
def specCaptureList : List String → List CaptureEvent → List String
  | l, [] => l
  | l, CaptureEvent.add ps :: es => specCaptureList (l ++ ps) es
  | l, CaptureEvent.remove i :: es => specCaptureList (l.eraseIdx i) es

/-- Concrete ingredient used to exercise the definitions. -/
def ingMilk : Ingredient := { id := "1", name := "Milk", possibleAlternates := ["Cream"] }

/-- An analysis service that always resolves with `[ingMilk]`. -/
def svcMilk : List String → Except Unit (List Ingredient) :=
  fun _ => Except.ok [ingMilk]

/-- An analysis service that always rejects. -/
def svcAnalysisFail : List String → Except Unit (List Ingredient) :=
  fun _ => Except.error ()

/-- Concrete recipe used to exercise the definitions. -/
def recipeToast : Recipe :=
  { id := "r1", title := "Toast", description := "Bread, toasted.",
    prepTime := "5 min", difficulty := Difficulty.Easy,
    ingredientsNeeded := ["Bread"], instructions := ["Toast the bread."] }

/-- A recipe service that always resolves with `[recipeToast]`. -/
def svcRecipesOk : List String → Option (List String) → Except Unit (List Recipe) :=
  fun _ _ => Except.ok [recipeToast]

/-- A recipe service that always rejects. -/
def svcRecipesFail : List String → Option (List String) → Except Unit (List Recipe) :=
  fun _ _ => Except.error ()

/-- A model with one captured image, as in the worked example of the spec. -/
def modelImgA : AppModel := { initialModel with capturedImages := ["imgA"] }

/-- A model on the editing screen with one detected ingredient. -/
def modelEditing : AppModel :=
  { initialModel with state := AppState.EDITING, ingredients := [ingMilk] }

/-- A model on the results screen with one recipe already shown. -/
def modelResults : AppModel :=
  { modelEditing with state := AppState.RESULTS, recipes := [recipeToast] }

/-- A single multi-file upload carrying eleven payloads at once. -/
def overflowUpload : List String :=
  ["p1", "p2", "p3", "p4", "p5", "p6", "p7", "p8", "p9", "p10", "p11"]

/-- A small concrete capture trace: two single uploads, one removal, one more
upload. -/
def captureTraceW : List CaptureEvent :=
  [CaptureEvent.add ["a"], CaptureEvent.add ["b"], CaptureEvent.remove 0,
   CaptureEvent.add ["c"]]

theorem handleFileUpload_capturedImages (s : AppModel) (ps : List String) :
    (handleFileUpload s ps).capturedImages = s.capturedImages ++ ps := by
  unfold handleFileUpload
  rcases ps with _ | ⟨a, l⟩ <;> simp

theorem jsFilterIdx_ne (idx : Nat) :
    ∀ (l : List String) (k : Nat),
      jsFilterIdx (fun i _ => i != idx) l k =
        if idx < k then l else l.eraseIdx (idx - k) := by
  intro l
  induction l with
  | nil => intro k; cases Nat.lt_or_ge idx k <;> simp [jsFilterIdx, List.eraseIdx]
  | cons a l ih =>
    intro k
    by_cases hk : k = idx
    · subst hk
      simp [jsFilterIdx, ih (k + 1), Nat.lt_irrefl, Nat.lt_succ_self, List.eraseIdx]
    · rcases Nat.lt_or_ge idx k with hlt | hge
      · have hbe : (k != idx) = true := by simp [bne_iff_ne]; omega
        simp [jsFilterIdx, hbe, ih (k + 1), hlt, Nat.lt_succ_of_lt hlt]
      · have hgt : k < idx := Nat.lt_of_le_of_ne hge (by omega)
        have hbe : (k != idx) = true := by simp [bne_iff_ne]; omega
        have hsub : idx - k = (idx - (k + 1)) + 1 := by omega
        simp [jsFilterIdx, hbe, ih (k + 1), Nat.not_lt.mpr hge,
              Nat.not_lt.mpr (Nat.succ_le_of_lt hgt), hsub, List.eraseIdx]

theorem removeImage_capturedImages (s : AppModel) (i : Nat) :
    (removeImage s i).capturedImages = s.capturedImages.eraseIdx i := by
  unfold removeImage
  simp [jsFilterIdx_ne]

theorem length_eraseIdx_le (l : List String) (i : Nat) :
    (l.eraseIdx i).length ≤ l.length := by
  induction l generalizing i with
  | nil => simp [List.eraseIdx]
  | cons a l ih =>
    cases i with
    | zero => simp [List.eraseIdx]
    | succ j =>
      simpa [List.eraseIdx] using Nat.succ_le_succ (ih j)

theorem applyCaptureEvent_state (s : AppModel) (e : CaptureEvent) :
    (applyCaptureEvent s e).state = s.state := by
  cases e with
  | add ps =>
    show (handleFileUpload s ps).state = s.state
    unfold handleFileUpload
    split <;> rfl
  | remove i => rfl

theorem runCapture_state (es : List CaptureEvent) :
    ∀ s : AppModel, (runCapture s es).state = s.state := by
  induction es with
  | nil => intro s; rfl
  | cons e es ih =>
    intro s
    show (runCapture (applyCaptureEvent s e) es).state = s.state
    rw [ih (applyCaptureEvent s e), applyCaptureEvent_state]

theorem runCapture_capturedImages (es : List CaptureEvent) :
    ∀ s : AppModel,
      (runCapture s es).capturedImages = specCaptureList s.capturedImages es := by
  induction es with
  | nil => intro s; rfl
  | cons e es ih =>
    intro s
    cases e with
    | add ps =>
      show (runCapture (handleFileUpload s ps) es).capturedImages = _
      rw [ih, handleFileUpload_capturedImages]
      rfl
    | remove i =>
      show (runCapture (removeImage s i) es).capturedImages = _
      rw [ih, removeImage_capturedImages]
      rfl

theorem runCapture_length_le (es : List CaptureEvent) :
    ∀ s : AppModel, uiGuarded s es = true → singleUploads es = true →
      s.capturedImages.length ≤ 10 →
      (runCapture s es).capturedImages.length ≤ 10 := by
  induction es with
  | nil => intro s _ _ h0; exact h0
  | cons e es ih =>
    intro s hg hs h0
    cases e with
    | add ps =>
      rw [uiGuarded] at hg
      rw [singleUploads] at hs
      simp only [Bool.and_eq_true, decide_eq_true_eq] at hg hs
      rcases hg with ⟨hlt2, hg2⟩
      rcases hs with ⟨hone2, hs2⟩
      refine ih (handleFileUpload s ps) hg2 hs2 ?_
      rw [handleFileUpload_capturedImages]
      simp only [List.length_append]
      omega
    | remove i =>
      rw [uiGuarded] at hg
      rw [singleUploads] at hs
      refine ih (removeImage s i) hg hs ?_
      rw [removeImage_capturedImages]
      exact le_trans (length_eraseIdx_le _ _) h0

theorem eraseIdx_of_le (l : List String) (i : Nat) (h : l.length ≤ i) :
    l.eraseIdx i = l := by
  induction l generalizing i with
  | nil => simp [List.eraseIdx]
  | cons a l ih =>
    cases i with
    | zero => simp at h
    | succ j =>
      have hj : l.length ≤ j := by
        simp only [List.length_cons] at h
        omega
      simp [List.eraseIdx, ih j hj]

theorem map_eq_self_of (f : Ingredient → Ingredient) (l : List Ingredient)
    (h : ∀ x ∈ l, f x = x) : l.map f = l := by
  induction l with
  | nil => rfl
  | cons a l ih =>
    have ha : f a = a := h a (by simp)
    have hl : ∀ x ∈ l, f x = x := fun x hx => h x (by simp [hx])
    simp [ha, ih hl]

theorem renameAt_fields (ing : Ingredient) (tid newName : String) :
    (if ing.id == tid then { ing with name := newName } else ing).id = ing.id ∧
    (if ing.id == tid then { ing with name := newName } else ing).possibleAlternates
      = ing.possibleAlternates := by
  split <;> simp

/-- C2: if `startAnalysis` runs with a non-empty capture list and the analysis
service resolves with list `L`, the resulting state is exactly EDITING and
the ingredient list equals `L` (and the service was called with all captured
images). -/
theorem startAnalysis_success (svc : List String → Except Unit (List Ingredient))
    (s : AppModel) (L : List Ingredient)
    (hne : s.capturedImages ≠ [])
    (hok : svc s.capturedImages = Except.ok L) :
    (handleStartAnalysis svc s).1.state = AppState.EDITING ∧
    (handleStartAnalysis svc s).1.ingredients = L ∧
    (handleStartAnalysis svc s).2 = some s.capturedImages := by
  have hlen : ¬ s.capturedImages.length = 0 :=
    fun h0 => hne (List.length_eq_zero.mp h0)
  unfold handleStartAnalysis
  simp [hlen, hok]

/-- Witness for C2, the worked example of the spec: capture list `["imgA"]`,
service resolving with the single Milk ingredient. -/
theorem startAnalysis_success_witness :
    modelImgA.capturedImages ≠ [] ∧
    svcMilk modelImgA.capturedImages = Except.ok [ingMilk] ∧
    ((handleStartAnalysis svcMilk modelImgA).1.state = AppState.EDITING ∧
     (handleStartAnalysis svcMilk modelImgA).1.ingredients = [ingMilk] ∧
     (handleStartAnalysis svcMilk modelImgA).2 = some modelImgA.capturedImages) :=
  ⟨by decide, rfl, startAnalysis_success svcMilk modelImgA [ingMilk] (by decide) rfl⟩

/-- C3: if `startAnalysis` runs with a non-empty capture list and the analysis
service rejects, the resulting state is exactly IDLE, the capture list is
unchanged, and the generic error message is surfaced. -/
theorem startAnalysis_failure (svc : List String → Except Unit (List Ingredient))
    (s : AppModel)
    (hne : s.capturedImages ≠ [])
    (herr : svc s.capturedImages = Except.error ()) :
    (handleStartAnalysis svc s).1.state = AppState.IDLE ∧
    (handleStartAnalysis svc s).1.capturedImages = s.capturedImages ∧
    (handleStartAnalysis svc s).1.error =
      some "Failed to analyze images. Please try again." := by
  have hlen : ¬ s.capturedImages.length = 0 :=
    fun h0 => hne (List.length_eq_zero.mp h0)
  unfold handleStartAnalysis
  simp [hlen, herr]

/-- Witness for C3 at the concrete one-image model with a rejecting service. -/
theorem startAnalysis_failure_witness :
    modelImgA.capturedImages ≠ [] ∧
    svcAnalysisFail modelImgA.capturedImages = Except.error () ∧
    ((handleStartAnalysis svcAnalysisFail modelImgA).1.state = AppState.IDLE ∧
     (handleStartAnalysis svcAnalysisFail modelImgA).1.capturedImages =
       modelImgA.capturedImages ∧
     (handleStartAnalysis svcAnalysisFail modelImgA).1.error =
       some "Failed to analyze images. Please try again.") :=
  ⟨by decide, rfl, startAnalysis_failure svcAnalysisFail modelImgA (by decide) rfl⟩

/-- C7: `reset` from any state yields an empty capture list, empty
ingredients, empty recipes, and state IDLE. -/
theorem reset_spec (s : AppModel) :
    (reset s).capturedImages = [] ∧ (reset s).ingredients = [] ∧
    (reset s).recipes = [] ∧ (reset s).state = AppState.IDLE :=
  ⟨rfl, rfl, rfl, rfl⟩

/-- Witness for C7 at a populated results-screen model. -/
theorem reset_spec_witness :
    (reset modelResults).capturedImages = [] ∧
    (reset modelResults).ingredients = [] ∧
    (reset modelResults).recipes = [] ∧
    (reset modelResults).state = AppState.IDLE :=
  reset_spec modelResults

/-- C8: `startAnalysis` with an empty capture list is a total no-op: the model
is returned unchanged (state, images, ingredients, recipes and error all
included) and no service request is issued. -/
theorem startAnalysis_empty_noop (svc : List String → Except Unit (List Ingredient))
    (s : AppModel) (h : s.capturedImages = []) :
    handleStartAnalysis svc s = (s, none) := by
  unfold handleStartAnalysis
  simp [h]

/-- Witness for C8 at the initial model. -/
theorem startAnalysis_empty_noop_witness :
    initialModel.capturedImages = [] ∧
    handleStartAnalysis svcMilk initialModel = (initialModel, none) :=
  ⟨rfl, startAnalysis_empty_noop svcMilk initialModel rfl⟩

/-- C4: `generateRecipes` calls the service with exactly the current
ingredient names (and no existing-titles argument); on success the recipe
list is replaced by the result and the state becomes RESULTS; on failure an
error is surfaced, the recipes are untouched, and the state rolls back to
EDITING; in every case the final state is not the transient GENERATING. -/
theorem generateRecipes_spec
    (svc : List String → Option (List String) → Except Unit (List Recipe))
    (s : AppModel) :
    (handleGenerateRecipes svc s).2 = some (s.ingredients.map Ingredient.name, none) ∧
    (∀ R, svc (s.ingredients.map Ingredient.name) none = Except.ok R →
      (handleGenerateRecipes svc s).1.recipes = R ∧
      (handleGenerateRecipes svc s).1.state = AppState.RESULTS) ∧
    (∀ e, svc (s.ingredients.map Ingredient.name) none = Except.error e →
      (handleGenerateRecipes svc s).1.state = AppState.EDITING ∧
      (handleGenerateRecipes svc s).1.error = some "Failed to generate recipes." ∧
      (handleGenerateRecipes svc s).1.recipes = s.recipes) ∧
    (handleGenerateRecipes svc s).1.state ≠ AppState.GENERATING := by
  cases h : svc (s.ingredients.map Ingredient.name) none with
  | ok R => simp [handleGenerateRecipes, h]
  | error e => simp [handleGenerateRecipes, h]

/-- Witness for C4: a service resolving with one recipe from the editing
model, applied through `generateRecipes_spec`. -/
theorem generateRecipes_spec_witness :
    svcRecipesOk (modelEditing.ingredients.map Ingredient.name) none =
      Except.ok [recipeToast] ∧
    ((handleGenerateRecipes svcRecipesOk modelEditing).1.recipes = [recipeToast] ∧
     (handleGenerateRecipes svcRecipesOk modelEditing).1.state = AppState.RESULTS) :=
  ⟨rfl, (generateRecipes_spec svcRecipesOk modelEditing).2.1 [recipeToast] rfl⟩

/-- C5: `requestMoreRecipes` calls the service with the current ingredient
names plus the titles of the recipes already shown; on success the new
results are appended after the existing recipes (preserving them and their
order) and the state returns to RESULTS; on failure an error is surfaced,
the recipe list is unchanged, and the state returns to RESULTS. -/
theorem moreSuggestions_spec
    (svc : List String → Option (List String) → Except Unit (List Recipe))
    (s : AppModel) :
    (handleMoreSuggestions svc s).2 =
      some (s.ingredients.map Ingredient.name, some (s.recipes.map Recipe.title)) ∧
    (∀ R, svc (s.ingredients.map Ingredient.name)
          (some (s.recipes.map Recipe.title)) = Except.ok R →
      (handleMoreSuggestions svc s).1.recipes = s.recipes ++ R ∧
      (handleMoreSuggestions svc s).1.state = AppState.RESULTS) ∧
    (∀ e, svc (s.ingredients.map Ingredient.name)
          (some (s.recipes.map Recipe.title)) = Except.error e →
      (handleMoreSuggestions svc s).1.recipes = s.recipes ∧
      (handleMoreSuggestions svc s).1.state = AppState.RESULTS ∧
      (handleMoreSuggestions svc s).1.error = some "Failed to get more suggestions.") := by
  cases h : svc (s.ingredients.map Ingredient.name)
      (some (s.recipes.map Recipe.title)) with
  | ok R => simp [handleMoreSuggestions, h]
  | error e => simp [handleMoreSuggestions, h]

/-- Witness for C5: from the results model (one recipe shown), a service
resolving with one more recipe; the prior recipe stays first. -/
theorem moreSuggestions_spec_witness :
    svcRecipesOk (modelResults.ingredients.map Ingredient.name)
      (some (modelResults.recipes.map Recipe.title)) = Except.ok [recipeToast] ∧
    ((handleMoreSuggestions svcRecipesOk modelResults).1.recipes =
       modelResults.recipes ++ [recipeToast] ∧
     (handleMoreSuggestions svcRecipesOk modelResults).1.state = AppState.RESULTS) :=
  ⟨rfl, (moreSuggestions_spec svcRecipesOk modelResults).2.1 [recipeToast] rfl⟩

/-- C6: `acceptAlternate` (`swapIngredient`) keeps the length and order of the
ingredient list; at every position whose ingredient has the targeted id the
name becomes `alt` with all other fields kept, and every position whose
ingredient has a different id is completely unchanged. -/
theorem acceptAlternate_spec (s : AppModel) (tid alt : String) (k : Nat)
    (ing : Ingredient) (h : s.ingredients[k]? = some ing) :
    (swapIngredient s tid alt).ingredients.length = s.ingredients.length ∧
    (ing.id = tid →
      (swapIngredient s tid alt).ingredients[k]? = some { ing with name := alt }) ∧
    (ing.id ≠ tid →
      (swapIngredient s tid alt).ingredients[k]? = some ing) := by
  unfold swapIngredient
  refine ⟨by simp, ?_, ?_⟩
  · intro hid
    simp [List.getElem?_map, h, hid]
  · intro hid
    simp [List.getElem?_map, h, hid]

/-- Witness for C6: a two-ingredient list; accepting "Cream" for id "1"
renames position 0 and leaves position 1 untouched. -/
theorem acceptAlternate_spec_witness :
    (modelEditing.ingredients[0]? = some ingMilk) ∧
    ((swapIngredient modelEditing "1" "Cream").ingredients.length =
       modelEditing.ingredients.length ∧
     (swapIngredient modelEditing "1" "Cream").ingredients[0]? =
       some { ingMilk with name := "Cream" }) :=
  ⟨rfl,
   ⟨(acceptAlternate_spec modelEditing "1" "Cream" 0 ingMilk rfl).1,
    (acceptAlternate_spec modelEditing "1" "Cream" 0 ingMilk rfl).2.1 rfl⟩⟩

/-- C9: both `acceptAlternate` (`swapIngredient`) and `renameIngredient`
(`updateIngredientName`) preserve every ingredient's id and
`possibleAlternates` at every position, so an accepted alternate is still in
the ingredient's `possibleAlternates` afterwards and remains selectable. -/
theorem edit_preserves_id_and_alternates (s : AppModel) (tid newName : String)
    (k : Nat) :
    ((swapIngredient s tid newName).ingredients[k]?.map
        (fun i => (i.id, i.possibleAlternates)) =
      s.ingredients[k]?.map (fun i => (i.id, i.possibleAlternates))) ∧
    ((updateIngredientName s tid newName).ingredients[k]?.map
        (fun i => (i.id, i.possibleAlternates)) =
      s.ingredients[k]?.map (fun i => (i.id, i.possibleAlternates))) ∧
    (∀ ing, s.ingredients[k]? = some ing → newName ∈ ing.possibleAlternates →
      ∃ ing2, (swapIngredient s tid newName).ingredients[k]? = some ing2 ∧
        newName ∈ ing2.possibleAlternates) := by
  refine ⟨?_, ?_, ?_⟩
  · unfold swapIngredient
    simp only [List.getElem?_map]
    cases h : s.ingredients[k]? with
    | none => rfl
    | some ing =>
      by_cases hc : ing.id = tid <;> simp [hc]
  · unfold updateIngredientName
    simp only [List.getElem?_map]
    cases h : s.ingredients[k]? with
    | none => rfl
    | some ing =>
      by_cases hc : ing.id = tid <;> simp [hc]
  · intro ing h hmem
    refine ⟨if ing.id == tid then { ing with name := newName } else ing, ?_, ?_⟩
    · unfold swapIngredient
      simp [List.getElem?_map, h]
    · rcases renameAt_fields ing tid newName with ⟨_, h2⟩
      rw [h2]
      exact hmem

/-- Witness for C9: accepting "Cream" for the Milk ingredient keeps id "1"
and the alternates list `["Cream"]`, so "Cream" is still selectable. -/
theorem edit_preserves_id_and_alternates_witness :
    ((swapIngredient modelEditing "1" "Cream").ingredients[0]?.map
        (fun i => (i.id, i.possibleAlternates)) =
      modelEditing.ingredients[0]?.map (fun i => (i.id, i.possibleAlternates))) ∧
    (∃ ing2, (swapIngredient modelEditing "1" "Cream").ingredients[0]? = some ing2 ∧
      "Cream" ∈ ing2.possibleAlternates) :=
  ⟨(edit_preserves_id_and_alternates modelEditing "1" "Cream" 0).1,
   (edit_preserves_id_and_alternates modelEditing "1" "Cream" 0).2.2 ingMilk rfl
     (by decide)⟩

/-- C10: an edit with no matching target is a total no-op on the whole model
(so nothing changes and nothing is thrown): `removeImage` with an index at or
past the end of the capture list, and `renameIngredient`, `acceptAlternate`
and `removeIngredient` with an id carried by no ingredient, all return the
model unchanged. -/
theorem missing_target_noop (s : AppModel) (idx : Nat) (tid newName : String)
    (himg : s.capturedImages.length ≤ idx)
    (hid : s.ingredients.all (fun ing => ing.id != tid) = true) :
    removeImage s idx = s ∧ updateIngredientName s tid newName = s ∧
    swapIngredient s tid newName = s ∧ removeIngredient s tid = s := by
  have hid2 : ∀ x ∈ s.ingredients, x.id ≠ tid := by
    simpa [List.all_eq_true] using hid
  have hmap : (s.ingredients.map
      (fun ing => if ing.id == tid then { ing with name := newName } else ing)) =
      s.ingredients := by
    refine map_eq_self_of _ _ ?_
    intro x hx
    have hne : (x.id == tid) = false := by simpa using hid2 x hx
    simp [hne]
  refine ⟨?_, ?_, ?_, ?_⟩
  · unfold removeImage
    rw [jsFilterIdx_ne, if_neg (Nat.not_lt_zero idx), Nat.sub_zero,
        eraseIdx_of_le s.capturedImages idx himg]
  · unfold updateIngredientName
    rw [hmap]
  · unfold swapIngredient
    rw [hmap]
  · unfold removeIngredient
    have hfil : s.ingredients.filter (fun ing => ing.id != tid) = s.ingredients := by
      apply List.filter_eq_self.mpr
      intro a ha
      simpa using hid2 a ha
    rw [hfil]

/-- Witness for C10: index 5 on an empty capture list and the absent id
"zzz" on the one-ingredient editing model all leave the model untouched. -/
theorem missing_target_noop_witness :
    modelEditing.capturedImages.length ≤ 5 ∧
    modelEditing.ingredients.all (fun ing => ing.id != "zzz") = true ∧
    (removeImage modelEditing 5 = modelEditing ∧
     updateIngredientName modelEditing "zzz" "x" = modelEditing ∧
     swapIngredient modelEditing "zzz" "x" = modelEditing ∧
     removeIngredient modelEditing "zzz" = modelEditing) :=
  ⟨by decide, by decide,
   missing_target_noop modelEditing 5 "zzz" "x" (by decide) (by decide)⟩

/-- C1 as stated is false on the code: `handleFileUpload` appends every
payload with no length check, so a single eleven-file upload fired from the
initial (Idle, empty) model — where the capture UI guard
`capturedImages.length < 10` holds — leaves eleven images in the list. -/
theorem capture_cap_counterexample :
    initialModel.state = AppState.IDLE ∧
    uiGuarded initialModel [CaptureEvent.add overflowUpload] = true ∧
    (runCapture initialModel [CaptureEvent.add overflowUpload]).capturedImages.length
      = 11 :=
  ⟨rfl, by decide, by decide⟩

/-- C1 (amended): for every sequence of `addImages`/`removeImage` calls made
while Idle in which each upload fires only under the UI guard (fewer than
ten images present) and carries at most one payload, the capture list never
exceeds ten entries; moreover for any such guarded sequence the list
contents are exactly described by appending each upload's payloads in order
and deleting the indexed element on each removal, and the state stays
IDLE. -/
theorem capture_cap_amended (s : AppModel) (es : List CaptureEvent)
    (hidle : s.state = AppState.IDLE)
    (hguard : uiGuarded s es = true)
    (hsingle : singleUploads es = true)
    (hstart : s.capturedImages.length ≤ 10) :
    (runCapture s es).capturedImages.length ≤ 10 ∧
    (runCapture s es).capturedImages = specCaptureList s.capturedImages es ∧
    (runCapture s es).state = AppState.IDLE := by
  refine ⟨runCapture_length_le es s hguard hsingle hstart,
          runCapture_capturedImages es s, ?_⟩
  rw [runCapture_state es s, hidle]

/-- Witness for the amended C1 on a concrete four-event trace. -/
theorem capture_cap_amended_witness :
    initialModel.state = AppState.IDLE ∧
    uiGuarded initialModel captureTraceW = true ∧
    singleUploads captureTraceW = true ∧
    initialModel.capturedImages.length ≤ 10 ∧
    ((runCapture initialModel captureTraceW).capturedImages.length ≤ 10 ∧
     (runCapture initialModel captureTraceW).capturedImages =
       specCaptureList initialModel.capturedImages captureTraceW ∧
     (runCapture initialModel captureTraceW).state = AppState.IDLE) :=
  ⟨rfl, by decide, by decide, by decide,
   capture_cap_amended initialModel captureTraceW rfl (by decide) (by decide)
     (by decide)⟩
